import Mathlib

/-!
Shallow embedding of `src/model/train.py` from the alphacats repository,
and proofs about it.  The script trains a joint policy/value network for a
card game: it loads a stored sample batch, builds a Keras model with three
input branches and two output heads, selects a batch size, fits, and saves
artifacts.  Pure computations (the dimensional constants, the batch-size
doubling loop, the forward pass of the built network over the reals, the
reshape logic of `load_data`) are embedded as Lean functions; the artifact
persistence tail of `main` is embedded as an explicit list of filesystem
operations interpreted over a directory-contents state.
-/

namespace AlphaCats

/-! ### Dimensional constants (train.py lines 33-42) -/

def TF_GRAPH_TAG : String := "serve"

def MAX_HISTORY : Nat := 58

def N_ACTION_FEATURES : Nat := 16

def NUM_CARD_TYPES : Nat := 11

def NUM_CARDS_IN_DECK : Nat := 23

def MAX_CARDS_IN_DRAW_PILE : Nat := 13

def MAX_INSERT_POSITIONS : Nat := 8

def N_OUTPUTS : Nat := 2 * NUM_CARD_TYPES + MAX_INSERT_POSITIONS + 1

/-! ### Batch size selection (train.py lines 163-170)

```
n_samples = len(y["value"])
batch_size = 32
while batch_size * 128 < n_samples and batch_size < 2048:
    batch_size *= 2
```

The while loop is embedded with explicit fuel.  Starting from 32 the loop
body can run at most 6 times (32 → 64 → … → 2048), so any fuel ≥ 6 computes
the loop's result; `batch_size` uses fuel 16, and
`batch_size_loop_postcondition` below checks that the fuel never runs out:
the returned value always falsifies the loop condition. -/

def batchLoop : Nat → Nat → Nat → Nat
  | 0, _, b => b
  | fuel + 1, n, b => if b * 128 < n ∧ b < 2048 then batchLoop fuel n (b * 2) else b

def batch_size (n_samples : Nat) : Nat := batchLoop 16 n_samples 32

/-! ### The network forward pass (train.py `build_model`, lines 45-103)

The Keras graph is embedded as a real-valued function of the learned
parameters and the four named inputs.  Layer semantics follow Keras:
`Dense` is an affine map (applied per time step on sequence inputs),
`LeakyReLU` has default slope 0.3, `GRU` uses tanh activation, sigmoid
recurrent activation, zero initial state and the default `reset_after`
gate equations, `Bidirectional` concatenates the forward pass over the
sequence with a pass over the reversed sequence, `Dropout` is the
identity at inference time, `Multiply` is the element-wise product, and
`Softmax` is `exp xᵢ / ∑ⱼ exp xⱼ`.  Sequence inputs are lists of feature
vectors; the shape arguments of `build_model` appear as the dimension
parameters `F` (history features), `C` (draw-pile features), `M` (hands
width) and `p` (`policy_shape`, the policy/mask width). -/

noncomputable section

def dense {m n : Nat} (W : Fin m → Fin n → ℝ) (b : Fin m → ℝ) (x : Fin n → ℝ) :
    Fin m → ℝ :=
  fun i => (∑ j, W i j * x j) + b i

def leakyReLU (x : ℝ) : ℝ := if x < 0 then 0.3 * x else x

def leakyReLUVec {n : Nat} (x : Fin n → ℝ) : Fin n → ℝ := fun i => leakyReLU (x i)

/-- Keras `Dropout` at inference time: the identity map. -/
def dropout {n : Nat} (_rate : ℝ) (x : Fin n → ℝ) : Fin n → ℝ := x

def sigmoid (x : ℝ) : ℝ := 1 / (1 + Real.exp (-x))

structure GRUWeights (n u : Nat) where
  Wz : Fin u → Fin n → ℝ
  Wr : Fin u → Fin n → ℝ
  Wh : Fin u → Fin n → ℝ
  Uz : Fin u → Fin u → ℝ
  Ur : Fin u → Fin u → ℝ
  Uh : Fin u → Fin u → ℝ
  bzi : Fin u → ℝ
  bzr : Fin u → ℝ
  bri : Fin u → ℝ
  brr : Fin u → ℝ
  bhi : Fin u → ℝ
  bhr : Fin u → ℝ

/-- One step of a Keras GRU cell (default `reset_after = True`):
`z = σ(Wz·x + bzi + Uz·h + bzr)`, `r = σ(Wr·x + bri + Ur·h + brr)`,
`h˜ = tanh(Wh·x + bhi + r ∘ (Uh·h + bhr))`, `h' = z ∘ h + (1 - z) ∘ h˜`. -/
def gruCell {n u : Nat} (p : GRUWeights n u) (h : Fin u → ℝ) (x : Fin n → ℝ) :
    Fin u → ℝ :=
  fun i =>
    let z := sigmoid ((∑ j, p.Wz i j * x j) + p.bzi i + (∑ j, p.Uz i j * h j) + p.bzr i)
    let r := sigmoid ((∑ j, p.Wr i j * x j) + p.bri i + (∑ j, p.Ur i j * h j) + p.brr i)
    let hh := Real.tanh ((∑ j, p.Wh i j * x j) + p.bhi i +
      r * ((∑ j, p.Uh i j * h j) + p.bhr i))
    z * h i + (1 - z) * hh

/-- GRU with `return_sequences=False`: fold the cell over the sequence from a
zero initial state and return the last hidden state. -/
def gruLast {n u : Nat} (p : GRUWeights n u) (xs : List (Fin n → ℝ)) : Fin u → ℝ :=
  xs.foldl (gruCell p) (fun _ => 0)

/-- Keras `Bidirectional(GRU(u))` with the default concat merge: forward
summary followed by the summary of the reversed sequence. -/
def biGRU {n u : Nat} (pf pb : GRUWeights n u) (xs : List (Fin n → ℝ)) :
    Fin (u + u) → ℝ :=
  Fin.append (gruLast pf xs) (gruLast pb xs.reverse)

def softmax {p : Nat} (z : Fin p → ℝ) : Fin p → ℝ :=
  fun i => Real.exp (z i) / ∑ j, Real.exp (z j)

/-- The learned parameters of the model built by `build_model`, one field per
Keras layer with weights (layer widths as in the source). -/
structure ModelWeights (F C M p : Nat) where
  histW1 : Fin 32 → Fin F → ℝ
  histB1 : Fin 32 → ℝ
  histW2 : Fin 16 → Fin 32 → ℝ
  histB2 : Fin 16 → ℝ
  histGRUf : GRUWeights 16 32
  histGRUb : GRUWeights 16 32
  drawW1 : Fin 16 → Fin C → ℝ
  drawB1 : Fin 16 → ℝ
  drawW2 : Fin 16 → Fin 16 → ℝ
  drawB2 : Fin 16 → ℝ
  drawGRUf : GRUWeights 16 16
  drawGRUb : GRUWeights 16 16
  handsW1 : Fin 32 → Fin M → ℝ
  handsB1 : Fin 32 → ℝ
  handsW2 : Fin 32 → Fin 32 → ℝ
  handsB2 : Fin 32 → ℝ
  mergedW1 : Fin 128 → Fin (32 + 32 + (16 + 16) + 32) → ℝ
  mergedB1 : Fin 128 → ℝ
  mergedW2 : Fin 128 → Fin 128 → ℝ
  mergedB2 : Fin 128 → ℝ
  policyW : Fin p → Fin 128 → ℝ
  policyB : Fin p → ℝ
  valueW : Fin 1 → Fin 128 → ℝ
  valueB : Fin 1 → ℝ

/-- The shared trunk of `build_model`: the three input branches, their
concatenation, and the two merged dense/LeakyReLU stages (with the dropout
between them), producing the activation `relu_2` that feeds both heads. -/
def trunk {F C M p : Nat} (w : ModelWeights F C M p)
    (history : List (Fin F → ℝ)) (hands : Fin M → ℝ)
    (drawpile : List (Fin C → ℝ)) : Fin 128 → ℝ :=
  let history_relu_1 := history.map (fun x => leakyReLUVec (dense w.histW1 w.histB1 x))
  let history_relu_2 := history_relu_1.map (fun x => leakyReLUVec (dense w.histW2 w.histB2 x))
  let history_lstm := biGRU w.histGRUf w.histGRUb history_relu_2
  let drawpile_relu_1 := drawpile.map (fun x => leakyReLUVec (dense w.drawW1 w.drawB1 x))
  let drawpile_relu_2 := drawpile_relu_1.map (fun x => leakyReLUVec (dense w.drawW2 w.drawB2 x))
  let drawpile_lstm := biGRU w.drawGRUf w.drawGRUb drawpile_relu_2
  let hands_relu_1 := leakyReLUVec (dense w.handsW1 w.handsB1 hands)
  let hands_relu_2 := leakyReLUVec (dense w.handsW2 w.handsB2 hands_relu_1)
  let merged_inputs_1 := Fin.append (Fin.append history_lstm drawpile_lstm) hands_relu_2
  let relu_1 := leakyReLUVec (dense w.mergedW1 w.mergedB1 merged_inputs_1)
  let dropout_1 := dropout 0.2 relu_1
  leakyReLUVec (dense w.mergedW2 w.mergedB2 dropout_1)

/-- Forward pass of the compiled model: policy head
(`Softmax(Multiply([Dense(policy_shape)(relu_2), output_mask]))`) and value
head (`Dense(1, tanh)(relu_2)`). -/
def modelForward {F C M p : Nat} (w : ModelWeights F C M p)
    (history : List (Fin F → ℝ)) (hands : Fin M → ℝ)
    (drawpile : List (Fin C → ℝ)) (output_mask : Fin p → ℝ) :
    (Fin p → ℝ) × (Fin 1 → ℝ) :=
  let relu_2 := trunk w history hands drawpile
  let policy_hidden_1 := dense w.policyW w.policyB relu_2
  let policy_masked := fun i => policy_hidden_1 i * output_mask i
  let policy_output := softmax policy_masked
  let value_output := fun i => Real.tanh (dense w.valueW w.valueB relu_2 i)
  (policy_output, value_output)

/-! #### Concrete instantiation used by `main`

`main` calls `build_model` with the per-sample shapes of the loaded data:
history features 16 (`N_ACTION_FEATURES`), draw-pile features 11
(`NUM_CARD_TYPES`), hands width 69 (`3*NUM_CARDS_IN_DECK`) and policy width
31 (`N_OUTPUTS`).  The all-zero parameterization and all-zero inputs below
give a concrete point at which the policy head can be evaluated exactly. -/

def zeroGRU (n u : Nat) : GRUWeights n u where
  Wz := fun _ _ => 0
  Wr := fun _ _ => 0
  Wh := fun _ _ => 0
  Uz := fun _ _ => 0
  Ur := fun _ _ => 0
  Uh := fun _ _ => 0
  bzi := fun _ => 0
  bzr := fun _ => 0
  bri := fun _ => 0
  brr := fun _ => 0
  bhi := fun _ => 0
  bhr := fun _ => 0

def zeroWeights : ModelWeights 16 11 69 31 where
  histW1 := fun _ _ => 0
  histB1 := fun _ => 0
  histW2 := fun _ _ => 0
  histB2 := fun _ => 0
  histGRUf := zeroGRU 16 32
  histGRUb := zeroGRU 16 32
  drawW1 := fun _ _ => 0
  drawB1 := fun _ => 0
  drawW2 := fun _ _ => 0
  drawB2 := fun _ => 0
  drawGRUf := zeroGRU 16 16
  drawGRUb := zeroGRU 16 16
  handsW1 := fun _ _ => 0
  handsB1 := fun _ => 0
  handsW2 := fun _ _ => 0
  handsB2 := fun _ => 0
  mergedW1 := fun _ _ => 0
  mergedB1 := fun _ => 0
  mergedW2 := fun _ _ => 0
  mergedB2 := fun _ => 0
  policyW := fun _ _ => 0
  policyB := fun _ => 0
  valueW := fun _ _ => 0
  valueB := fun _ => 0

def histEx : List (Fin 16 → ℝ) := List.replicate MAX_HISTORY (fun _ => 0)

def handsEx : Fin 69 → ℝ := fun _ => 0

def drawEx : List (Fin 11 → ℝ) := List.replicate MAX_CARDS_IN_DRAW_PILE (fun _ => 0)

/-- A legal-action mask of width `N_OUTPUTS = 31` with the first position
masked out (zero) and every other position legal (one). -/
def maskEx : Fin 31 → ℝ := fun i => if i = 0 then 0 else 1

end

/-! ### `load_data` (train.py lines 115-131)

`np.load` yields named flat arrays; each `reshape` call succeeds exactly
when the flat element count equals the product of the target dimensions
(otherwise numpy raises a `ValueError`), so `load_data` is embedded as an
`Option`-valued function: `none` models the data-shape error.  A reshaped
array is a list of rows (of lists of rows). -/

def chunksOfAux {α : Type} (k : Nat) : Nat → List α → List (List α)
  | 0, _ => []
  | _ + 1, [] => []
  | fuel + 1, x :: xs => (x :: xs).take k :: chunksOfAux k fuel ((x :: xs).drop k)

def chunksOf {α : Type} (k : Nat) (l : List α) : List (List α) :=
  chunksOfAux k l.length l

/-- Embedding of numpy `a.reshape((r, c))`: defined iff `a` has exactly
`r * c` elements. -/
def reshape2 {α : Type} (l : List α) (r c : Nat) : Option (List (List α)) :=
  if l.length = r * c then some (chunksOf c l) else none

/-- Embedding of numpy `a.reshape((r, c, d))`: defined iff `a` has exactly
`r * c * d` elements. -/
def reshape3 {α : Type} (l : List α) (r c d : Nat) : Option (List (List (List α))) :=
  if l.length = r * (c * d) then some ((chunksOf (c * d) l).map (chunksOf d)) else none

/-- The named flat arrays of a stored `.npz` sample batch. -/
structure RawBatch where
  X_history : List ℝ
  X_hands : List ℝ
  X_drawpile : List ℝ
  X_output_mask : List ℝ
  Y_policy : List ℝ
  Y_value : List ℝ

/-- The named input tensors `X` and targets `Y` returned by `load_data`. -/
structure LoadedData where
  history : List (List (List ℝ))
  hands : List (List ℝ)
  drawpile : List (List (List ℝ))
  output_mask : List (List ℝ)
  policy : List (List ℝ)
  value : List (List ℝ)

/-- Embedding of `load_data`: `n_samples = len(Y_value)` (inlined below),
then the six reshapes of the source in order; any size mismatch raises
(returns `none`). -/
def load_data (batch : RawBatch) : Option LoadedData :=
  reshape3 batch.X_history batch.Y_value.length MAX_HISTORY N_ACTION_FEATURES >>= fun xh =>
  reshape2 batch.X_hands batch.Y_value.length (3 * NUM_CARDS_IN_DECK) >>= fun xha =>
  reshape3 batch.X_drawpile batch.Y_value.length MAX_CARDS_IN_DRAW_PILE NUM_CARD_TYPES >>= fun xd =>
  reshape2 batch.X_output_mask batch.Y_value.length N_OUTPUTS >>= fun xm =>
  reshape2 batch.Y_policy batch.Y_value.length N_OUTPUTS >>= fun yp =>
  reshape2 batch.Y_value batch.Y_value.length 1 >>= fun yv =>
  some ⟨xh, xha, xd, xm, yp, yv⟩

/-- All stored flat arrays have the element counts required by the fixed
shapes for this batch's sample count `len(Y_value)`. -/
def sizesOk (b : RawBatch) : Prop :=
  b.X_history.length = b.Y_value.length * (MAX_HISTORY * N_ACTION_FEATURES) ∧
  b.X_hands.length = b.Y_value.length * (3 * NUM_CARDS_IN_DECK) ∧
  b.X_drawpile.length = b.Y_value.length * (MAX_CARDS_IN_DRAW_PILE * NUM_CARD_TYPES) ∧
  b.X_output_mask.length = b.Y_value.length * N_OUTPUTS ∧
  b.Y_policy.length = b.Y_value.length * N_OUTPUTS

instance (b : RawBatch) : Decidable (sizesOk b) := by
  unfold sizesOk
  infer_instance

/-- Shape predicate: `t` is an `r × c` matrix. -/
def shape2 {α : Type} (t : List (List α)) (r c : Nat) : Prop :=
  t.length = r ∧ ∀ row ∈ t, row.length = c

/-- Shape predicate: `t` is an `r × c × d` tensor. -/
def shape3 {α : Type} (t : List (List (List α))) (r c d : Nat) : Prop :=
  t.length = r ∧ ∀ m ∈ t, m.length = c ∧ ∀ row ∈ m, row.length = d

/-- A well-formed one-sample batch: every flat array has exactly the element
count its fixed shape requires. -/
def goodBatch : RawBatch where
  X_history := List.replicate 928 0
  X_hands := List.replicate 69 0
  X_drawpile := List.replicate 143 0
  X_output_mask := List.replicate 31 0
  Y_policy := List.replicate 31 0
  Y_value := [0]

/-- A malformed one-sample batch: `X_history` is empty instead of holding
`58 * 16 = 928` elements. -/
def badBatch : RawBatch where
  X_history := []
  X_hands := List.replicate 69 0
  X_drawpile := List.replicate 143 0
  X_output_mask := List.replicate 31 0
  Y_policy := List.replicate 31 0
  Y_value := [0]

/-! ### The fit call (train.py lines 135-136 and 171-183)

`main` accepts `--validation_split` (default 0.1) but the `model.fit` call
passes the literal `0.1`; the `fit` keyword arguments are embedded as a
record computed from the parsed arguments and the sample count. -/

/-- The parsed command-line arguments of `main`. -/
structure Args where
  input : String
  output : String
  validation_split : ℝ
  initial_weights : Option String

/-- The arguments `main` passes to `model.fit` (lines 171-183): the computed
batch size, 100 epochs, the literal validation split `0.1`, and the two
callbacks (`EarlyStopping(monitor='val_loss', min_delta=0.0001, patience=5,
restore_best_weights=True)` and `TerminateOnNaN()`). -/
structure FitParams where
  batch_size : Nat
  epochs : Nat
  validation_split : ℝ
  early_stopping_monitor : String
  early_stopping_min_delta : ℝ
  early_stopping_patience : Nat
  restore_best_weights : Bool
  terminate_on_nan : Bool

noncomputable def fitCall (_args : Args) (n_samples : Nat) : FitParams where
  batch_size := batch_size n_samples
  epochs := 100
  validation_split := 0.1
  early_stopping_monitor := "val_loss"
  early_stopping_min_delta := 0.0001
  early_stopping_patience := 5
  restore_best_weights := true
  terminate_on_nan := true

/-! ### Artifact persistence (train.py lines 185-203)

After fitting, `main` performs, in order: `shutil.rmtree(output)` if the
output path exists; `model.save(output/original)`; the TensorRT
`converter.convert()`; `converter.save(output)` (the optimized artifact);
`model.save_weights(output/weights.h5)`; `plot_model(output/model.pdf)`;
`plot_metrics(output/metrics.pdf)`.  An exception in `convert()` aborts the
script, so nothing after it runs.  The tail is embedded as a list of
filesystem operations, interpreted over the contents of the output
location (`none` = the path does not exist). -/

inductive FsOp where
  | removeOutputTree : FsOp
  | convert : FsOp
  | writeArtifact : String → FsOp
deriving DecidableEq

/-- The operation trace of the persistence tail of `main`, given whether the
output path already exists and whether the TensorRT conversion succeeds. -/
def mainOutputOps (outputExists : Bool) (convertSucceeds : Bool) : List FsOp :=
  (if outputExists then [FsOp.removeOutputTree] else []) ++
    [FsOp.writeArtifact "original", FsOp.convert] ++
    (if convertSucceeds then
      [FsOp.writeArtifact "optimized", FsOp.writeArtifact "weights.h5",
        FsOp.writeArtifact "model.pdf", FsOp.writeArtifact "metrics.pdf"]
    else [])

/-- Effect of one operation on the output location's contents:
`rmtree` deletes the location, `convert` writes nothing, and writing an
artifact creates the location if needed and adds the artifact. -/
def applyOp : Option (Finset String) → FsOp → Option (Finset String)
  | _, FsOp.removeOutputTree => none
  | s, FsOp.convert => s
  | s, FsOp.writeArtifact name => some (insert name (s.getD ∅))

def runOps (s : Option (Finset String)) (ops : List FsOp) : Option (Finset String) :=
  ops.foldl applyOp s

/-- The artifacts a completed run leaves at the output location. -/
def runArtifacts : Finset String :=
  {"original", "optimized", "weights.h5", "model.pdf", "metrics.pdf"}

/-- Contents of the output location after the persistence tail of a
completed run, starting from arbitrary prior contents `s`. -/
def mainPersist (s : Option (Finset String)) : Option (Finset String) :=
  runOps s (mainOutputOps s.isSome true)

/-! ## Theorems -/

/-! ### Invariants of the batch-size doubling loop -/

theorem batchLoop_ge (fuel n b : Nat) : b ≤ batchLoop fuel n b := by
  induction fuel generalizing b with
  | zero => exact Nat.le_refl b
  | succ f ih =>
    simp only [batchLoop]
    split
    · exact le_trans (Nat.le_mul_of_pos_right b (by norm_num)) (ih (b * 2))
    · exact Nat.le_refl b

theorem batchLoop_invariant (fuel n b : Nat) (hlo : 32 ≤ b) (hhi : b ≤ 2048)
    (hpow : ∃ k, b = 2 ^ k) :
    32 ≤ batchLoop fuel n b ∧ batchLoop fuel n b ≤ 2048 ∧
      ∃ k, batchLoop fuel n b = 2 ^ k := by
  induction fuel generalizing b with
  | zero => exact ⟨hlo, hhi, hpow⟩
  | succ f ih =>
    simp only [batchLoop]
    split
    · rename_i hcond
      obtain ⟨k, hk⟩ := hpow
      -- b is a power of two below 2048 = 2^11, hence b ≤ 1024, so b*2 ≤ 2048.
      have hk11 : k < 11 := by
        by_contra hge
        push_neg at hge
        have : (2048 : Nat) ≤ b := by
          rw [hk]
          calc (2048 : Nat) = 2 ^ 11 := by norm_num
          _ ≤ 2 ^ k := Nat.pow_le_pow_right (by norm_num) hge
        omega
      have hb2 : b * 2 ≤ 2048 := by
        have : b * 2 = 2 ^ (k + 1) := by rw [hk, Nat.pow_succ]
        rw [this]
        calc (2 : Nat) ^ (k + 1) ≤ 2 ^ 11 := Nat.pow_le_pow_right (by norm_num) (by omega)
        _ = 2048 := by norm_num
      exact ih (b * 2) (by omega) hb2 ⟨k + 1, by rw [hk, Nat.pow_succ]⟩
    · exact ⟨hlo, hhi, hpow⟩

theorem batchLoop_mono (fuel b : Nat) {n₁ n₂ : Nat} (h : n₁ ≤ n₂) :
    batchLoop fuel n₁ b ≤ batchLoop fuel n₂ b := by
  induction fuel generalizing b with
  | zero => exact Nat.le_refl b
  | succ f ih =>
    simp only [batchLoop]
    by_cases h1 : b * 128 < n₁ ∧ b < 2048
    · have h2 : b * 128 < n₂ ∧ b < 2048 := ⟨lt_of_lt_of_le h1.1 h, h1.2⟩
      rw [if_pos h1, if_pos h2]
      exact ih (b * 2)
    · rw [if_neg h1]
      by_cases h2 : b * 128 < n₂ ∧ b < 2048
      · rw [if_pos h2]
        exact le_trans (Nat.le_mul_of_pos_right b (by norm_num)) (batchLoop_ge f n₂ (b * 2))
      · rw [if_neg h2]

theorem batchLoop_exit (fuel n : Nat) :
    ∀ b, 2048 ≤ b * 2 ^ fuel →
      ¬(batchLoop fuel n b * 128 < n ∧ batchLoop fuel n b < 2048) := by
  induction fuel with
  | zero =>
    intro b h hc
    simp only [pow_zero, Nat.mul_one] at h
    simp only [batchLoop] at hc
    omega
  | succ f ih =>
    intro b h
    simp only [batchLoop]
    split
    · apply ih
      have hrw : b * 2 ^ (f + 1) = b * 2 * 2 ^ f := by ring
      rw [← hrw]
      exact h
    · rename_i hcond
      exact hcond

/-- The fuel of `batch_size` is sufficient: the value returned always
falsifies the Python loop's condition, so the embedded loop stops for the
same reason the source loop does. -/
theorem batch_size_loop_postcondition (n : Nat) :
    ¬(batch_size n * 128 < n ∧ batch_size n < 2048) :=
  batchLoop_exit 16 n 32 (by norm_num)

/-- Claim C3: for every sample count `n`, the batch size computed by the
doubling loop of `main` (start at 32, double while `batch_size * 128 < n`
and `batch_size < 2048`) satisfies `32 ≤ b ≤ 2048` and is a power of two;
and for `n = 16384` the loop resolves to batch size 128. -/
theorem batch_size_bounds_pow2_and_16384 :
    (∀ n, 32 ≤ batch_size n ∧ batch_size n ≤ 2048 ∧ ∃ k, batch_size n = 2 ^ k) ∧
      batch_size 16384 = 128 := by
  refine ⟨fun n => ?_, by decide⟩
  exact batchLoop_invariant 16 n 32 (by norm_num) (by norm_num) ⟨5, by norm_num⟩

/-- Claim C4: the batch-size selection rule is monotone non-decreasing in
the sample count: `n₁ ≤ n₂` implies `batch_size n₁ ≤ batch_size n₂`. -/
theorem batch_size_mono {n₁ n₂ : Nat} (h : n₁ ≤ n₂) :
    batch_size n₁ ≤ batch_size n₂ :=
  batchLoop_mono 16 32 h

/-- Witness for C4 at a concrete pair of sample counts. -/
theorem batch_size_mono_witness :
    100 ≤ 16384 ∧ batch_size 100 ≤ batch_size 16384 :=
  ⟨by norm_num, batch_size_mono (by norm_num)⟩

/-- Claim C5, counterexample: the claim states `N_OUTPUTS = 38`; in the code
`N_OUTPUTS = 2*NUM_CARD_TYPES + MAX_INSERT_POSITIONS + 1 = 2*11 + 8 + 1 = 31`,
so the claimed value 38 is false. -/
theorem N_OUTPUTS_ne_38 : N_OUTPUTS ≠ 38 := by decide

/-- Claim C5, amended: `N_OUTPUTS`, derived as
`2*NUM_CARD_TYPES + MAX_INSERT_POSITIONS + 1` with `NUM_CARD_TYPES = 11` and
`MAX_INSERT_POSITIONS = 8`, equals 31. -/
theorem N_OUTPUTS_eq_31 :
    N_OUTPUTS = 2 * NUM_CARD_TYPES + MAX_INSERT_POSITIONS + 1 ∧
      NUM_CARD_TYPES = 11 ∧ MAX_INSERT_POSITIONS = 8 ∧ N_OUTPUTS = 31 := by
  refine ⟨rfl, rfl, rfl, by decide⟩

/-! ### Shape lemmas for `load_data` -/

theorem chunksOfAux_shape {α : Type} (k : Nat) (hk : 0 < k) :
    ∀ (r fuel : Nat) (l : List α), l.length ≤ fuel → l.length = r * k →
      (chunksOfAux k fuel l).length = r ∧
        ∀ c ∈ chunksOfAux k fuel l, c.length = k := by
  intro r
  induction r with
  | zero =>
    intro fuel l hfuel hlen
    have hnil : l = [] := List.length_eq_zero.mp (by omega)
    subst hnil
    cases fuel <;> exact ⟨rfl, by intro c hc; cases hc⟩
  | succ r ih =>
    intro fuel l hfuel hlen
    have hkle : k ≤ l.length := by
      rw [hlen]; calc k = 1 * k := (one_mul k).symm
      _ ≤ (r + 1) * k := Nat.mul_le_mul_right k (by omega)
    obtain ⟨x, xs, rfl⟩ : ∃ x xs, l = x :: xs := by
      cases l with
      | nil => simp at hkle; omega
      | cons x xs => exact ⟨x, xs, rfl⟩
    obtain ⟨f, rfl⟩ : ∃ f, fuel = f + 1 := by
      cases fuel with
      | zero => simp at hfuel
      | succ f => exact ⟨f, rfl⟩
    simp only [chunksOfAux]
    have hdroplen : ((x :: xs).drop k).length = r * k := by
      rw [List.length_drop, hlen]
      calc (r + 1) * k - k = r * k + k - k := by ring_nf
      _ = r * k := by omega
    have hrec := ih f ((x :: xs).drop k)
      (by rw [List.length_drop]; omega) hdroplen
    refine ⟨?_, ?_⟩
    · simp only [List.length_cons, hrec.1]
    · intro c hc
      rcases List.mem_cons.mp hc with hc | hc
      · subst hc
        rw [List.length_take]
        omega
      · exact hrec.2 c hc

theorem chunksOf_shape {α : Type} (k r : Nat) (hk : 0 < k) (l : List α)
    (hlen : l.length = r * k) :
    (chunksOf k l).length = r ∧ ∀ c ∈ chunksOf k l, c.length = k :=
  chunksOfAux_shape k hk r l.length l (Nat.le_refl _) hlen

theorem reshape2_shape {α : Type} {l : List α} {r c : Nat} (hc : 0 < c) {t : List (List α)}
    (h : reshape2 l r c = some t) : shape2 t r c := by
  unfold reshape2 at h
  split at h
  · rename_i hlen
    obtain rfl : chunksOf c l = t := Option.some_inj.mp h
    exact chunksOf_shape c r hc l hlen
  · exact absurd h (by simp)

theorem reshape3_shape {α : Type} {l : List α} {r c d : Nat} (hc : 0 < c) (hd : 0 < d)
    {t : List (List (List α))} (h : reshape3 l r c d = some t) : shape3 t r c d := by
  unfold reshape3 at h
  split at h
  · rename_i hlen
    obtain rfl : (chunksOf (c * d) l).map (chunksOf d) = t := Option.some_inj.mp h
    have houter := chunksOf_shape (c * d) r (Nat.mul_pos hc hd) l hlen
    constructor
    · rw [List.length_map]
      exact houter.1
    · intro m hm
      obtain ⟨row, hrow, rfl⟩ := List.mem_map.mp hm
      have hrowlen : row.length = c * d := houter.2 row hrow
      have := chunksOf_shape d c hd row (by rw [hrowlen, Nat.mul_comm])
      exact ⟨this.1, this.2⟩
  · exact absurd h (by simp)

/-- Claim C7: for every stored batch, `load_data` returns the named tensors
reshaped to the fixed dimensions — history `[N, 58, 16]`, hands `[N, 69]`,
drawpile `[N, 13, 11]`, output_mask and policy `[N, 31]` (31 = `N_OUTPUTS`),
value `[N, 1]` with `N = len(Y_value)` — when the flat array sizes divide
evenly, and signals a data-shape error (returns `none`) whenever any stored
flat array's element count does not match its required fixed shape. -/
theorem load_data_shapes (b : RawBatch) :
    (sizesOk b →
      ∃ t, load_data b = some t ∧
        shape3 t.history b.Y_value.length 58 16 ∧
        shape2 t.hands b.Y_value.length 69 ∧
        shape3 t.drawpile b.Y_value.length 13 11 ∧
        shape2 t.output_mask b.Y_value.length 31 ∧
        shape2 t.policy b.Y_value.length 31 ∧
        shape2 t.value b.Y_value.length 1) ∧
    (¬ sizesOk b → load_data b = none) := by
  constructor
  · rintro ⟨h1, h2, h3, h4, h5⟩
    have e1 : reshape3 b.X_history b.Y_value.length MAX_HISTORY N_ACTION_FEATURES =
        some ((chunksOf (MAX_HISTORY * N_ACTION_FEATURES) b.X_history).map
          (chunksOf N_ACTION_FEATURES)) := by
      unfold reshape3; rw [if_pos h1]
    have e2 : reshape2 b.X_hands b.Y_value.length (3 * NUM_CARDS_IN_DECK) =
        some (chunksOf (3 * NUM_CARDS_IN_DECK) b.X_hands) := by
      unfold reshape2; rw [if_pos h2]
    have e3 : reshape3 b.X_drawpile b.Y_value.length MAX_CARDS_IN_DRAW_PILE NUM_CARD_TYPES =
        some ((chunksOf (MAX_CARDS_IN_DRAW_PILE * NUM_CARD_TYPES) b.X_drawpile).map
          (chunksOf NUM_CARD_TYPES)) := by
      unfold reshape3; rw [if_pos h3]
    have e4 : reshape2 b.X_output_mask b.Y_value.length N_OUTPUTS =
        some (chunksOf N_OUTPUTS b.X_output_mask) := by
      unfold reshape2; rw [if_pos h4]
    have e5 : reshape2 b.Y_policy b.Y_value.length N_OUTPUTS =
        some (chunksOf N_OUTPUTS b.Y_policy) := by
      unfold reshape2; rw [if_pos h5]
    have e6 : reshape2 b.Y_value b.Y_value.length 1 =
        some (chunksOf 1 b.Y_value) := by
      unfold reshape2; rw [if_pos (by omega)]
    refine ⟨⟨(chunksOf (MAX_HISTORY * N_ACTION_FEATURES) b.X_history).map
        (chunksOf N_ACTION_FEATURES),
      chunksOf (3 * NUM_CARDS_IN_DECK) b.X_hands,
      (chunksOf (MAX_CARDS_IN_DRAW_PILE * NUM_CARD_TYPES) b.X_drawpile).map
        (chunksOf NUM_CARD_TYPES),
      chunksOf N_OUTPUTS b.X_output_mask,
      chunksOf N_OUTPUTS b.Y_policy,
      chunksOf 1 b.Y_value⟩, ?_, ?_, ?_, ?_, ?_, ?_, ?_⟩
    · simp only [load_data, Option.bind_eq_bind', e1, e2, e3, e4, e5, e6,
        Option.some_bind]
    · exact reshape3_shape (by norm_num [MAX_HISTORY]) (by norm_num [N_ACTION_FEATURES]) e1
    · exact reshape2_shape (by norm_num [NUM_CARDS_IN_DECK]) e2
    · exact reshape3_shape (by norm_num [MAX_CARDS_IN_DRAW_PILE])
        (by norm_num [NUM_CARD_TYPES]) e3
    · exact reshape2_shape (by norm_num [N_OUTPUTS, NUM_CARD_TYPES, MAX_INSERT_POSITIONS]) e4
    · exact reshape2_shape (by norm_num [N_OUTPUTS, NUM_CARD_TYPES, MAX_INSERT_POSITIONS]) e5
    · exact reshape2_shape (by norm_num) e6
  · intro hno
    by_cases h1 : b.X_history.length =
        b.Y_value.length * (MAX_HISTORY * N_ACTION_FEATURES)
    case neg =>
      have e : reshape3 b.X_history b.Y_value.length MAX_HISTORY N_ACTION_FEATURES =
          none := by unfold reshape3; rw [if_neg h1]
      simp only [load_data, Option.bind_eq_bind', e, Option.none_bind]
    case pos =>
    have e1 : reshape3 b.X_history b.Y_value.length MAX_HISTORY N_ACTION_FEATURES =
        some ((chunksOf (MAX_HISTORY * N_ACTION_FEATURES) b.X_history).map
          (chunksOf N_ACTION_FEATURES)) := by
      unfold reshape3; rw [if_pos h1]
    by_cases h2 : b.X_hands.length = b.Y_value.length * (3 * NUM_CARDS_IN_DECK)
    case neg =>
      have e : reshape2 b.X_hands b.Y_value.length (3 * NUM_CARDS_IN_DECK) = none := by
        unfold reshape2; rw [if_neg h2]
      simp only [load_data, Option.bind_eq_bind', e1, Option.some_bind, e,
        Option.none_bind]
    case pos =>
    have e2 : reshape2 b.X_hands b.Y_value.length (3 * NUM_CARDS_IN_DECK) =
        some (chunksOf (3 * NUM_CARDS_IN_DECK) b.X_hands) := by
      unfold reshape2; rw [if_pos h2]
    by_cases h3 : b.X_drawpile.length =
        b.Y_value.length * (MAX_CARDS_IN_DRAW_PILE * NUM_CARD_TYPES)
    case neg =>
      have e : reshape3 b.X_drawpile b.Y_value.length MAX_CARDS_IN_DRAW_PILE
          NUM_CARD_TYPES = none := by unfold reshape3; rw [if_neg h3]
      simp only [load_data, Option.bind_eq_bind', e1, e2, Option.some_bind, e,
        Option.none_bind]
    case pos =>
    have e3 : reshape3 b.X_drawpile b.Y_value.length MAX_CARDS_IN_DRAW_PILE NUM_CARD_TYPES =
        some ((chunksOf (MAX_CARDS_IN_DRAW_PILE * NUM_CARD_TYPES) b.X_drawpile).map
          (chunksOf NUM_CARD_TYPES)) := by
      unfold reshape3; rw [if_pos h3]
    by_cases h4 : b.X_output_mask.length = b.Y_value.length * N_OUTPUTS
    case neg =>
      have e : reshape2 b.X_output_mask b.Y_value.length N_OUTPUTS = none := by
        unfold reshape2; rw [if_neg h4]
      simp only [load_data, Option.bind_eq_bind', e1, e2, e3, Option.some_bind, e,
        Option.none_bind]
    case pos =>
    have e4 : reshape2 b.X_output_mask b.Y_value.length N_OUTPUTS =
        some (chunksOf N_OUTPUTS b.X_output_mask) := by
      unfold reshape2; rw [if_pos h4]
    by_cases h5 : b.Y_policy.length = b.Y_value.length * N_OUTPUTS
    case neg =>
      have e : reshape2 b.Y_policy b.Y_value.length N_OUTPUTS = none := by
        unfold reshape2; rw [if_neg h5]
      simp only [load_data, Option.bind_eq_bind', e1, e2, e3, e4, Option.some_bind, e,
        Option.none_bind]
    case pos =>
    exact absurd ⟨h1, h2, h3, h4, h5⟩ hno

/-- Witness for C7: the well-formed batch loads with the fixed shapes and
the malformed batch is rejected. -/
theorem load_data_shapes_witness :
    (∃ t, load_data goodBatch = some t ∧
      shape3 t.history goodBatch.Y_value.length 58 16 ∧
      shape2 t.hands goodBatch.Y_value.length 69 ∧
      shape3 t.drawpile goodBatch.Y_value.length 13 11 ∧
      shape2 t.output_mask goodBatch.Y_value.length 31 ∧
      shape2 t.policy goodBatch.Y_value.length 31 ∧
      shape2 t.value goodBatch.Y_value.length 1) ∧
    load_data badBatch = none :=
  ⟨(load_data_shapes goodBatch).1
      (by refine ⟨?_, ?_, ?_, ?_, ?_⟩ <;>
        simp only [goodBatch, List.length_replicate, List.length_cons,
          List.length_nil] <;> rfl),
    (load_data_shapes badBatch).2
      (by intro hsz
          have := hsz.1
          simp only [badBatch, List.length_nil, List.length_cons,
            List.length_replicate] at this
          exact absurd this (by decide))⟩

/-! ### Theorems about the two output heads -/

theorem softmax_pos {p : Nat} (z : Fin p → ℝ) (i : Fin p) : 0 < softmax z i := by
  have hden : 0 < ∑ j, Real.exp (z j) :=
    Finset.sum_pos (fun j _ => Real.exp_pos (z j)) ⟨i, Finset.mem_univ i⟩
  exact div_pos (Real.exp_pos (z i)) hden

theorem tanh_strict_bounds (x : ℝ) : -1 < Real.tanh x ∧ Real.tanh x < 1 := by
  have hc : 0 < Real.cosh x := Real.cosh_pos x
  constructor
  · have h := Real.sinh_lt_cosh (-x)
    rw [Real.sinh_neg, Real.cosh_neg] at h
    rw [Real.tanh_eq_sinh_div_cosh, lt_div_iff₀ hc]
    linarith
  · rw [Real.tanh_eq_sinh_div_cosh, div_lt_one hc]
    exact Real.sinh_lt_cosh x

theorem gruCell_zero_state_zero {n u : Nat} (x : Fin n → ℝ) :
    gruCell (zeroGRU n u) (fun _ => 0) x = fun _ => 0 := by
  funext i
  simp [gruCell, zeroGRU, Real.tanh_zero]

theorem gruLast_zeroGRU {n u : Nat} (xs : List (Fin n → ℝ)) :
    gruLast (zeroGRU n u) xs = fun _ => 0 := by
  unfold gruLast
  induction xs with
  | nil => rfl
  | cons x xs ih => rw [List.foldl_cons, gruCell_zero_state_zero x]; exact ih

theorem dense_zero {m n : Nat} (x : Fin n → ℝ) :
    dense (fun (_ : Fin m) (_ : Fin n) => (0 : ℝ)) (fun _ => 0) x = fun _ => 0 := by
  funext i
  simp [dense]

theorem leakyReLUVec_zero {n : Nat} :
    leakyReLUVec (fun (_ : Fin n) => (0 : ℝ)) = fun _ => 0 := by
  funext i
  simp [leakyReLUVec, leakyReLU]

theorem append_zero_zero {m n : Nat} :
    Fin.append (fun (_ : Fin m) => (0 : ℝ)) (fun (_ : Fin n) => (0 : ℝ)) =
      fun _ => 0 := by
  funext i
  unfold Fin.append Fin.addCases
  split <;> simp

theorem trunk_zeroWeights :
    trunk zeroWeights histEx handsEx drawEx = fun _ => 0 := by
  simp only [trunk, biGRU, zeroWeights, gruLast_zeroGRU, append_zero_zero,
    dense_zero, leakyReLUVec_zero, dropout]

/-- Claim C2: in the policy head of `build_model`, the element-wise
multiplication by the `output_mask` input is applied to the linear dense
projection of the trunk before the softmax normalization, and the softmax is
the final operation producing the policy output: the policy output equals
`softmax (dense(relu_2) * output_mask)`. -/
theorem policy_head_masks_before_softmax {F C M p : Nat} (w : ModelWeights F C M p)
    (history : List (Fin F → ℝ)) (hands : Fin M → ℝ)
    (drawpile : List (Fin C → ℝ)) (output_mask : Fin p → ℝ) :
    (modelForward w history hands drawpile output_mask).1 =
      softmax (fun i =>
        dense w.policyW w.policyB (trunk w history hands drawpile) i * output_mask i) :=
  rfl

/-- Claim C1, refuted by evaluation: at the all-zero parameterization and
all-zero inputs, with the width-31 mask that zeroes position 0 and leaves
the other 30 positions legal, the policy output of the built model assigns
probability `1/31 ≠ 0` to the masked position 0: multiplying the logits by
the mask before the softmax does not zero the probability of masked
positions, contradicting the claim. -/
theorem masked_position_gets_positive_probability :
    maskEx 0 = 0 ∧ maskEx 1 ≠ 0 ∧
      (modelForward zeroWeights histEx handsEx drawEx maskEx).1 0 = 1 / 31 ∧
      (1 / 31 : ℝ) ≠ 0 := by
  refine ⟨by simp [maskEx], by norm_num [maskEx], ?_, by norm_num⟩
  show softmax (fun i =>
    dense zeroWeights.policyW zeroWeights.policyB
      (trunk zeroWeights histEx handsEx drawEx) i * maskEx i) 0 = 1 / 31
  rw [trunk_zeroWeights]
  have hz : (fun i =>
      dense zeroWeights.policyW zeroWeights.policyB (fun _ => 0) i * maskEx i) =
        fun _ => (0 : ℝ) := by
    funext i
    simp [zeroWeights, dense]
  rw [hz]
  simp [softmax, Real.exp_zero]

/-- Claim C6: for every parameterization of the model built by `build_model`
and every input, the scalar value-head output lies in `[-1, 1]`: the value
head is a single-unit dense projection with tanh activation. -/
theorem value_head_in_Icc {F C M p : Nat} (w : ModelWeights F C M p)
    (history : List (Fin F → ℝ)) (hands : Fin M → ℝ)
    (drawpile : List (Fin C → ℝ)) (output_mask : Fin p → ℝ) (i : Fin 1) :
    (modelForward w history hands drawpile output_mask).2 i ∈ Set.Icc (-1 : ℝ) 1 := by
  have h := tanh_strict_bounds (dense w.valueW w.valueB (trunk w history hands drawpile) i)
  rw [Set.mem_Icc]
  exact ⟨h.1.le, h.2.le⟩

/-! ### Theorems about the fit call and the persistence tail -/

/-- Claim C9: the `--validation_split` flag has no effect on the fit call:
two argument records differing only in `validation_split` produce identical
fit parameters, and the validation fraction actually passed is the
hardcoded `0.1`. -/
theorem validation_split_flag_ignored (a : Args) (v₁ v₂ : ℝ) (n : Nat) :
    fitCall { a with validation_split := v₁ } n =
        fitCall { a with validation_split := v₂ } n ∧
      (fitCall a n).validation_split = 0.1 :=
  ⟨rfl, rfl⟩

theorem artifacts_insert_eq :
    insert "metrics.pdf" (insert "model.pdf" (insert "weights.h5"
      (insert "optimized" (insert "original" (∅ : Finset String))))) = runArtifacts := by
  ext x
  simp only [runArtifacts, Finset.mem_insert, Finset.mem_singleton,
    Finset.not_mem_empty, or_false]
  tauto

/-- Claim C8: if the output location already exists, the persistence tail
removes it in its entirety before any artifact is written (the removal is
the first operation of the trace); consequently, whatever the prior
contents, a completed run leaves the output location holding exactly the
artifacts of the current run — never merged with prior contents. -/
theorem output_dir_replaced_not_merged (s : Option (Finset String)) :
    (s.isSome = true →
      ∃ rest, mainOutputOps s.isSome true = FsOp.removeOutputTree :: rest ∧
        FsOp.removeOutputTree ∉ rest) ∧
      mainPersist s = some runArtifacts := by
  cases s with
  | none =>
    exact ⟨(fun h => nomatch h), congrArg some artifacts_insert_eq⟩
  | some s₀ =>
    refine ⟨fun _ => ⟨[FsOp.writeArtifact "original", FsOp.convert,
      FsOp.writeArtifact "optimized", FsOp.writeArtifact "weights.h5",
      FsOp.writeArtifact "model.pdf", FsOp.writeArtifact "metrics.pdf"],
      rfl, by decide⟩, congrArg some artifacts_insert_eq⟩

/-- Witness for C8 at a concrete pre-existing output state. -/
theorem output_dir_replaced_not_merged_witness :
    (Option.isSome (some ({"stale"} : Finset String)) = true →
      ∃ rest, mainOutputOps (Option.isSome (some ({"stale"} : Finset String))) true =
          FsOp.removeOutputTree :: rest ∧ FsOp.removeOutputTree ∉ rest) ∧
      mainPersist (some ({"stale"} : Finset String)) = some runArtifacts :=
  output_dir_replaced_not_merged (some {"stale"})

/-- Claim C10: in a run whose TensorRT conversion succeeds, the weights-only
artifact `weights.h5` and the two diagnostic plots are written strictly
after the full-model save (`original`) and strictly after the conversion
and the optimized-model save; and if the conversion fails, the run's trace
contains no `weights.h5` write at all. -/
theorem weights_written_after_convert (outputExists : Bool) :
    (List.indexOf (FsOp.writeArtifact "original") (mainOutputOps outputExists true) <
        List.indexOf (FsOp.writeArtifact "weights.h5") (mainOutputOps outputExists true) ∧
      List.indexOf FsOp.convert (mainOutputOps outputExists true) <
        List.indexOf (FsOp.writeArtifact "weights.h5") (mainOutputOps outputExists true) ∧
      List.indexOf (FsOp.writeArtifact "optimized") (mainOutputOps outputExists true) <
        List.indexOf (FsOp.writeArtifact "weights.h5") (mainOutputOps outputExists true) ∧
      List.indexOf (FsOp.writeArtifact "weights.h5") (mainOutputOps outputExists true) <
        List.indexOf (FsOp.writeArtifact "model.pdf") (mainOutputOps outputExists true) ∧
      List.indexOf (FsOp.writeArtifact "weights.h5") (mainOutputOps outputExists true) <
        List.indexOf (FsOp.writeArtifact "metrics.pdf") (mainOutputOps outputExists true)) ∧
      FsOp.writeArtifact "weights.h5" ∉ mainOutputOps outputExists false ∧
      FsOp.writeArtifact "model.pdf" ∉ mainOutputOps outputExists false ∧
      FsOp.writeArtifact "metrics.pdf" ∉ mainOutputOps outputExists false := by
  cases outputExists <;> decide

end AlphaCats
